import Mathlib

/-!
Verification of the scheduled-post lifecycle subsystem of the
social-media-scheduler repository.

Two variants are modelled:

* `Local` — the database-backed scheduler of `local.py`: a SQLAlchemy
  `scheduled_posts` table (the PostStore), an APScheduler background
  scheduler (the Dispatcher), per-user metric counters, and the publish
  action `schedule_instagram_post`.
* `Monetize` — the flat-file scheduler of `monetize.py`: a JSON list of
  post dicts processed by a background loop, with a free-tier quota.

Timestamps are modelled as integers.  A value stored in the database is a
naive wall-clock reading together with a time-zone name; `awareOf`
converts it to an absolute instant using the zone's offset, which is what
`pytz.timezone(tz).localize(naive)` produces and what comparison of two
aware datetimes in Python compares.  `datetime.now(tz)` is modelled as an
absolute instant `now`.

Externally observable calls (the timer callback being entered, the
Instagram upload being attempted) are recorded in an event trace inside
the state, so that claims about "Publisher.send was / was not called" are
statable.
-/

namespace Local

/-- A row of the `scheduled_posts` table (class `ScheduledPost` in
`local.py`): id (primary key), owner email, image path, caption, naive
scheduled wall-clock time, time-zone name, article URL. -/
structure Post where
  id : String
  email : String
  image_path : String
  caption : String
  scheduled_time : Int
  timezone : String
  article_url : String
deriving DecidableEq, Repr

/-- An armed APScheduler job: `scheduler.add_job(schedule_instagram_post,
'date', run_date=…, args=[email, post_id, image_path, caption, …],
id=post_id, …)`. -/
structure Job where
  id : String
  runDate : Int
  email : String
  image_path : String
  caption : String
deriving DecidableEq, Repr

/-- Observable events: the publish action (`schedule_instagram_post`)
being invoked for a post id, and an Instagram upload attempt
(`client.photo_upload`) with its payload. -/
inductive Event
  | publishAttempt (pid : String)
  | send (image_path caption : String)
deriving DecidableEq, Repr

/-- The full shallowly-embedded state: the `scheduled_posts` table, the
`instagram_posts_scheduled` counter per user email, the APScheduler live
job set, and the trace of observable events. -/
structure AppState where
  posts : List Post
  metrics : List (String × Nat)
  jobs : List Job
  events : List Event
deriving DecidableEq, Repr

/-- Errors surfaced synchronously to the UI caller (via `st.error`).
`PastDue` is "Scheduled time must be in the future!", `LoginRequired` is
"Please login to Instagram first.".  `NotFound` never occurs in the code;
it exists so the spec's `NotFoundError` claim is statable. -/
inductive SchedErr
  | PastDue
  | LoginRequired
  | NotFound
deriving DecidableEq, Repr

/-- Environment of a run: `TEST_MODE`, the session-state Instagram
credentials, whether a session file exists and re-login succeeds, whether
the `instagram_client` is set in session state, and whether
`client.photo_upload` succeeds for a given payload. -/
structure Cfg where
  testMode : Bool
  igUsername : Option String
  igLoggedIn : Bool
  sessionFileExists : String → Bool
  reloginOk : Bool
  sendSuccess : String → String → Bool

/-- Absolute instant denoted by the naive wall-clock time `wall` read in
zone `tz`: `pytz.timezone(tz).localize(wall)`.  `off` gives each zone's
UTC offset. -/
def awareOf (off : String → Int) (tz : String) (wall : Int) : Int :=
  wall - off tz

/-- Append one observable event to the trace. -/
def logEvent (e : Event) (s : AppState) : AppState :=
  { s with events := s.events ++ [e] }

/-- `add_scheduled_post(email, post_data)`: inserts a row.  `id` is the
table's primary key, so inserting a duplicate id makes the commit fail and
roll back, leaving the table unchanged. -/
def add_scheduled_post (email : String) (p : Post) (s : AppState) : AppState :=
  let q := { p with email := email }
  if s.posts.any (fun r => r.id == q.id) then s
  else { s with posts := s.posts ++ [q] }

/-- Delete the first row matching id and email; the rest of the list is
kept (at most one row can match, id being the primary key). -/
def removeFirstPost (email pid : String) : List Post → List Post
  | [] => []
  | p :: ps =>
    if p.id == pid && p.email == email then ps
    else p :: removeFirstPost email pid ps

/-- `remove_scheduled_post(email, post_id)`: deletes the row if present;
silently does nothing when no row matches. -/
def remove_scheduled_post (email pid : String) (s : AppState) : AppState :=
  { s with posts := removeFirstPost email pid s.posts }

/-- A partial update, `updated_data` in `update_scheduled_post`: only the
keys present in the dict are applied. -/
structure Patch where
  caption : Option String
  scheduled_time : Option Int
  timezone : Option String
deriving DecidableEq, Repr

/-- Apply the fields present in the patch, keeping the others. -/
def applyPatch (pa : Patch) (p : Post) : Post :=
  { p with
    caption := pa.caption.getD p.caption
    scheduled_time := pa.scheduled_time.getD p.scheduled_time
    timezone := pa.timezone.getD p.timezone }

/-- Patch the first row matching id and email, keeping everything else. -/
def updateFirst (email pid : String) (pa : Patch) : List Post → List Post
  | [] => []
  | p :: ps =>
    if p.id == pid && p.email == email then applyPatch pa p :: ps
    else p :: updateFirst email pid pa ps

/-- `update_scheduled_post(email, post_id, updated_data)`: fetches the
row; if present, applies the partial patch; if absent, the `if post:`
guard fails and the function returns silently — no error of any kind is
raised. -/
def update_scheduled_post (email pid : String) (pa : Patch) (s : AppState) :
    AppState × Option SchedErr :=
  if s.posts.any (fun p => p.id == pid && p.email == email) then
    ({ s with posts := updateFirst email pid pa s.posts }, none)
  else (s, none)

/-- `update_user_metric(email, metric, value)` for the
`instagram_posts_scheduled` counter: bump the existing row, or create a
zero row and bump it. -/
def bumpFirst (email : String) (v : Nat) : List (String × Nat) → List (String × Nat)
  | [] => []
  | m :: ms =>
    if m.1 == email then (m.1, m.2 + v) :: ms
    else m :: bumpFirst email v ms

/-- `update_user_metric` as a state transformer. -/
def update_user_metric (email : String) (v : Nat) (s : AppState) : AppState :=
  if s.metrics.any (fun m => m.1 == email) then
    { s with metrics := bumpFirst email v s.metrics }
  else { s with metrics := s.metrics ++ [(email, v)] }

/-- `get_user_metrics(email)["instagram_posts_scheduled"]`, defaulting to
0 when the user has no metrics row. -/
def get_user_metric (email : String) (s : AppState) : Nat :=
  ((s.metrics.find? (fun m => m.1 == email)).map (fun m => m.2)).getD 0

/-- `add_job(email, post_id, image_path, caption, scheduled_time)`:
`scheduler.add_job(…, id=post_id, replace_existing=True)` — any job
already armed under the same id is torn down and the new one armed. -/
def add_job (email pid image_path caption : String) (run_date : Int)
    (s : AppState) : AppState :=
  { s with jobs := s.jobs.filter (fun j => !(j.id == pid)) ++
      [⟨pid, run_date, email, image_path, caption⟩] }

/-- `scheduler.remove_job(post_id)` with `JobLookupError` caught: tears
down the job if armed, no-op otherwise. -/
def remove_job (pid : String) (s : AppState) : AppState :=
  { s with jobs := s.jobs.filter (fun j => !(j.id == pid)) }

/-- `post_to_instagram(image_path, caption)`: attempts the upload (the
attempt is recorded as a `send` event) and returns whether it succeeded;
exceptions are caught inside and reported as `false`. -/
def post_to_instagram (cfg : Cfg) (image_path caption : String) (s : AppState) :
    AppState × Bool :=
  (logEvent (Event.send image_path caption) s, cfg.sendSuccess image_path caption)

/-- `schedule_instagram_post(email, post_id, image_path, caption, …)`:
the publish action fired by a timer or invoked directly.  In TEST_MODE it
only simulates; otherwise it requires session-state Instagram credentials
and a session file, re-logs in, attempts the upload, and on success
increments the user's counter and then removes the row from the store.
Every failure path (missing credentials, login exception, failed upload)
is caught inside and leaves the store and counters untouched. -/
def schedule_instagram_post (cfg : Cfg) (email pid image_path caption : String)
    (s : AppState) : AppState :=
  let s0 := logEvent (Event.publishAttempt pid) s
  if cfg.testMode then s0
  else
    match cfg.igUsername with
    | none => s0
    | some u =>
      if cfg.sessionFileExists u then
        if cfg.reloginOk then
          let r := post_to_instagram cfg image_path caption s0
          if r.2 then
            remove_scheduled_post email pid (update_user_metric email 1 r.1)
          else r.1
        else s0
      else s0

/-- The schedule-form submit branch of `render_instagram_scheduler_page`:
requires an Instagram login, rejects a due time not strictly in the
future of `now` taken in the selected zone (surfacing "Scheduled time
must be in the future!") before any mutation, and otherwise persists the
row and arms the timer. -/
def schedule_post_submit (cfg : Cfg) (off : String → Int) (now : Int)
    (email pid image_path caption link : String) (wall : Int) (tz : String)
    (s : AppState) : AppState × Option SchedErr :=
  if cfg.igLoggedIn = false then (s, some SchedErr.LoginRequired)
  else if awareOf off tz wall ≤ now then (s, some SchedErr.PastDue)
  else
    let full_caption :=
      if link = "" then caption else caption ++ "\nRead more at: " ++ link
    let s1 := add_scheduled_post email
      { id := pid, email := email, image_path := image_path,
        caption := full_caption, scheduled_time := wall, timezone := tz,
        article_url := link } s
    (add_job email pid image_path full_caption (awareOf off tz wall) s1, none)

/-- The update-form submit branch of `edit_scheduled_post`: rejects a new
due time not strictly in the future of `now` taken in the newly selected
zone before any mutation; otherwise updates the row, removes the old job
(tolerating its absence) and arms a job at the new due time. -/
def edit_scheduled_post (off : String → Int) (now : Int)
    (email pid image_path article_url new_caption : String)
    (new_wall : Int) (new_timezone : String) (s : AppState) :
    AppState × Option SchedErr :=
  if awareOf off new_timezone new_wall ≤ now then (s, some SchedErr.PastDue)
  else
    let updated_caption :=
      if article_url = "" then new_caption
      else new_caption ++ "\nRead more at: " ++ article_url
    let s1 := (update_scheduled_post email pid
      { caption := some updated_caption, scheduled_time := some new_wall,
        timezone := some new_timezone } s).1
    let s2 := remove_job pid s1
    (add_job email pid image_path updated_caption
      (awareOf off new_timezone new_wall) s2, none)

/-- `delete_scheduled_post(email, post_id)`: remove the job (tolerating
`JobLookupError`), then delete the store row (no-op if absent).  Never
raises. -/
def delete_scheduled_post (email pid : String) (s : AppState) : AppState :=
  remove_scheduled_post email pid (remove_job pid s)

/-- Body of the reconciliation loop in
`load_and_schedule_existing_posts`: skip posts whose time-zone name does
not parse; for a post with no armed job, compare the localized due time
with `now` in the post's own zone — re-arm if still future, publish
immediately if already passed. -/
def reconcile_post (cfg : Cfg) (off : String → Int) (tzOk : String → Bool)
    (now : Int) (email : String) (s : AppState) (p : Post) : AppState :=
  if tzOk p.timezone then
    if s.jobs.find? (fun j => j.id == p.id) = none then
      if now < awareOf off p.timezone p.scheduled_time then
        add_job email p.id p.image_path p.caption
          (awareOf off p.timezone p.scheduled_time) s
      else
        schedule_instagram_post cfg email p.id p.image_path p.caption s
    else s
  else s

/-- `load_and_schedule_existing_posts(email)`: read the user's persisted
posts once, then reconcile each against the dispatcher state. -/
def load_and_schedule_existing_posts (cfg : Cfg) (off : String → Int)
    (tzOk : String → Bool) (now : Int) (email : String) (s : AppState) :
    AppState :=
  (s.posts.filter (fun p => p.email == email)).foldl
    (reconcile_post cfg off tzOk now email) s

/-- The pending posts the UI lists for a user: the rows of the
`scheduled_posts` table with that email. -/
def listPending (email : String) (s : AppState) : List Post :=
  s.posts.filter (fun p => p.email == email)

/-- The live jobs armed under a given id. -/
def armedJobs (pid : String) (js : List Job) : List Job :=
  js.filter (fun j => j.id == pid)

/-- How many times the publish action has been invoked for a post id. -/
def attemptCount (pid : String) (evs : List Event) : Nat :=
  evs.countP (fun e =>
    match e with
    | Event.publishAttempt q => q == pid
    | _ => false)

/-- How many Instagram upload attempts the trace records. -/
def sendCount (evs : List Event) : Nat :=
  evs.countP (fun e =>
    match e with
    | Event.send _ _ => true
    | _ => false)

end Local

namespace Monetize

/-- A scheduled-post dict in `scheduled_posts.json` (`monetize.py`):
username, generated content, naive scheduled time, posted flag. -/
structure SPost where
  username : String
  content : String
  scheduled_time : Int
  posted : Bool
deriving DecidableEq, Repr

/-- Observable delivery attempts of one processing pass: a tweet attempt
with its outcome, an Instagram upload attempt with its outcome, or the
Instagram helper bailing out because the default image is missing. -/
inductive MEvent
  | twitter (content : String) (ok : Bool)
  | instagram (content : String) (ok : Bool)
  | instagramNoImage (content : String)
deriving DecidableEq, Repr

/-- `FREE_SCHEDULED_POST_LIMIT = 3`. -/
def FREE_SCHEDULED_POST_LIMIT : Nat := 3

/-- `post_to_twitter(content)`: attempts the tweet; a failure is caught
inside and only reported on screen — the caller cannot observe it. -/
def post_to_twitter (twOk : String → Bool) (content : String) : List MEvent :=
  [MEvent.twitter content (twOk content)]

/-- `post_to_instagram(content)`: bails out (with an on-screen error) if
the default image file is missing, otherwise attempts the upload; a
failure is caught inside. -/
def post_to_instagram (igOk : String → Bool) (imageExists : Bool)
    (content : String) : List MEvent :=
  if imageExists then [MEvent.instagram content (igOk content)]
  else [MEvent.instagramNoImage content]

/-- Loop body of `process_scheduled_posts` for one post: if the post is
unposted and due, attempt Twitter then Instagram delivery and mark the
post as posted — the mark does not depend on either delivery outcome,
because both helpers swallow their errors. -/
def step (twOk igOk : String → Bool) (imageExists : Bool) (now : Int)
    (p : SPost) : SPost × List MEvent :=
  if p.posted = false ∧ p.scheduled_time ≤ now then
    ({ p with posted := true },
      post_to_twitter twOk p.content ++ post_to_instagram igOk imageExists p.content)
  else (p, [])

/-- One pass of the `while True:` body of `process_scheduled_posts` over
the loaded post list: each post is stepped in order, and the resulting
list is saved back. -/
def process_scheduled_posts_once (twOk igOk : String → Bool)
    (imageExists : Bool) (now : Int) (posts : List SPost) :
    List SPost × List MEvent :=
  (posts.map (fun p => (step twOk igOk imageExists now p).1),
   posts.flatMap (fun p => (step twOk igOk imageExists now p).2))

/-- The records counted against the free quota in
`schedule_social_media_post`: the user's posts with `posted` false. -/
def pendingOf (username : String) (posts : List SPost) : List SPost :=
  posts.filter (fun p => p.username == username && p.posted == false)

/-- `schedule_social_media_post(username, content, scheduled_time)`: a
free user already holding `FREE_SCHEDULED_POST_LIMIT` unposted records is
refused (warning shown, `False` returned, nothing saved); otherwise one
new unposted record is appended and saved and `True` returned. -/
def schedule_social_media_post (status : String → String)
    (posts : List SPost) (username content : String)
    (scheduled_time : Int) : List SPost × Bool :=
  if status username = "free" ∧
      FREE_SCHEDULED_POST_LIMIT ≤ (pendingOf username posts).length then
    (posts, false)
  else
    (posts ++ [⟨username, content, scheduled_time, false⟩], true)

end Monetize

/-! Concrete fixtures used by the witness theorems. -/

namespace Local

/-- A run environment in which every publish attempt goes through and
succeeds. -/
def cfgDemo : Cfg :=
  { testMode := false, igUsername := some "iguser", igLoggedIn := true,
    sessionFileExists := fun _ => true, reloginOk := true,
    sendSuccess := fun _ _ => true }

/-- Like `cfgDemo`, but every upload attempt fails. -/
def cfgFail : Cfg :=
  { cfgDemo with sendSuccess := fun _ _ => false }

/-- The empty application state. -/
def emptyState : AppState :=
  { posts := [], metrics := [], jobs := [], events := [] }

/-- A zone-offset table in which every zone has offset 0. -/
def off0 : String → Int := fun _ => 0

/-- A zone-name validator accepting only UTC. -/
def tzOk0 : String → Bool := fun z => z == "UTC"

/-- A sample persisted post. -/
def postA : Post :=
  { id := "a", email := "u@x", image_path := "i", caption := "c",
    scheduled_time := 3, timezone := "UTC", article_url := "" }

/-- A sample partial update. -/
def patchDemo : Patch :=
  { caption := some "new", scheduled_time := some 7, timezone := none }

/-- A state holding just `postA`. -/
def s8 : AppState := { posts := [postA], metrics := [], jobs := [], events := [] }

/-- A state holding `postA` and an existing metrics row. -/
def s2w : AppState :=
  { posts := [postA], metrics := [("u@x", 4)], jobs := [], events := [] }

/-- A job armed for `postA`. -/
def jobA : Job := ⟨"a", 3, "u@x", "i", "c"⟩

/-- A state holding `postA` with its job armed. -/
def s7 : AppState :=
  { posts := [postA], metrics := [], jobs := [jobA], events := [] }

/-- A post due in the future relative to `now = 0`. -/
def postP : Post :=
  { id := "p1", email := "u@x", image_path := "i.jpg", caption := "cap",
    scheduled_time := 3, timezone := "UTC", article_url := "" }

/-- A state holding just `postP`, with no job armed. -/
def s5 : AppState := { posts := [postP], metrics := [], jobs := [], events := [] }

/-- A past-due variant of `postP`. -/
def postQ : Post := { postP with id := "q1", scheduled_time := -3 }

/-- A state holding just `postQ`, with no job armed. -/
def s5q : AppState := { posts := [postQ], metrics := [], jobs := [], events := [] }

end Local

namespace Monetize

/-- A due, unposted sample post. -/
def p0 : SPost := { username := "u", content := "c", scheduled_time := 3, posted := false }

/-- Delivery oracles for the witness runs. -/
def tw0 : String → Bool := fun _ => true

/-- Instagram delivery fails in the witness runs. -/
def ig0 : String → Bool := fun _ => false

/-- Everyone is a free user. -/
def st0 : String → String := fun _ => "free"

/-- Three unposted records already held by user `u`. -/
def posts0 : List SPost :=
  [⟨"u", "a", 1, false⟩, ⟨"u", "b", 2, false⟩, ⟨"u", "c", 3, false⟩]

end Monetize

/-! Helper lemmas about lists and about the individual operations. -/

namespace Local

theorem filter_filter_of_imp {α : Type} (c r : α → Bool)
    (h : ∀ a, c a = true → r a = true) :
    ∀ l : List α, (l.filter r).filter c = l.filter c := by
  intro l
  induction l with
  | nil => rfl
  | cons a t ih =>
    cases hr : r a with
    | true => simp only [List.filter_cons, hr, if_true, ih]
    | false =>
      have hc : c a = false := by
        cases hc : c a with
        | true => rw [h a hc] at hr; exact absurd hr (by simp)
        | false => rfl
      simp [List.filter_cons, hr, hc, ih]

theorem filter_filter_of_excl {α : Type} (c r : α → Bool)
    (h : ∀ a, r a = true → c a = false) :
    ∀ l : List α, (l.filter r).filter c = [] := by
  intro l
  induction l with
  | nil => rfl
  | cons a t ih =>
    cases hr : r a with
    | true => simp [List.filter_cons, hr, h a hr, ih]
    | false => simp [List.filter_cons, hr, ih]

theorem find?_append_none {α : Type} (p : α → Bool) :
    ∀ l₁ l₂ : List α, l₁.find? p = none → (l₁ ++ l₂).find? p = l₂.find? p := by
  intro l₁
  induction l₁ with
  | nil => intro l₂ _; rfl
  | cons a t ih =>
    intro l₂ h
    cases hp : p a with
    | true => rw [List.find?_cons_of_pos _ hp] at h; exact absurd h (by simp)
    | false =>
      rw [List.find?_cons_of_neg _ (by simp [hp])] at h
      rw [List.cons_append, List.find?_cons_of_neg _ (by simp [hp]), ih l₂ h]

@[simp] theorem logEvent_posts (e : Event) (s : AppState) :
    (logEvent e s).posts = s.posts := rfl

@[simp] theorem logEvent_metrics (e : Event) (s : AppState) :
    (logEvent e s).metrics = s.metrics := rfl

@[simp] theorem logEvent_jobs (e : Event) (s : AppState) :
    (logEvent e s).jobs = s.jobs := rfl

@[simp] theorem logEvent_events (e : Event) (s : AppState) :
    (logEvent e s).events = s.events ++ [e] := rfl

@[simp] theorem remove_scheduled_post_metrics (email pid : String) (s : AppState) :
    (remove_scheduled_post email pid s).metrics = s.metrics := rfl

@[simp] theorem remove_scheduled_post_jobs (email pid : String) (s : AppState) :
    (remove_scheduled_post email pid s).jobs = s.jobs := rfl

@[simp] theorem remove_scheduled_post_events (email pid : String) (s : AppState) :
    (remove_scheduled_post email pid s).events = s.events := rfl

@[simp] theorem remove_scheduled_post_posts (email pid : String) (s : AppState) :
    (remove_scheduled_post email pid s).posts = removeFirstPost email pid s.posts := rfl

@[simp] theorem update_user_metric_posts (email : String) (v : Nat) (s : AppState) :
    (update_user_metric email v s).posts = s.posts := by
  unfold update_user_metric; split <;> rfl

@[simp] theorem update_user_metric_jobs (email : String) (v : Nat) (s : AppState) :
    (update_user_metric email v s).jobs = s.jobs := by
  unfold update_user_metric; split <;> rfl

@[simp] theorem update_user_metric_events (email : String) (v : Nat) (s : AppState) :
    (update_user_metric email v s).events = s.events := by
  unfold update_user_metric; split <;> rfl

@[simp] theorem add_job_posts (email pid i c : String) (d : Int) (s : AppState) :
    (add_job email pid i c d s).posts = s.posts := rfl

@[simp] theorem add_job_metrics (email pid i c : String) (d : Int) (s : AppState) :
    (add_job email pid i c d s).metrics = s.metrics := rfl

@[simp] theorem add_job_events (email pid i c : String) (d : Int) (s : AppState) :
    (add_job email pid i c d s).events = s.events := rfl

@[simp] theorem remove_job_posts (pid : String) (s : AppState) :
    (remove_job pid s).posts = s.posts := rfl

@[simp] theorem remove_job_metrics (pid : String) (s : AppState) :
    (remove_job pid s).metrics = s.metrics := rfl

@[simp] theorem remove_job_events (pid : String) (s : AppState) :
    (remove_job pid s).events = s.events := rfl

theorem armedJobs_append (pid : String) (l₁ l₂ : List Job) :
    armedJobs pid (l₁ ++ l₂) = armedJobs pid l₁ ++ armedJobs pid l₂ := by
  simp [armedJobs, List.filter_append]

theorem armedJobs_add_job_ne (pid : String) (email qid i c : String) (d : Int)
    (s : AppState) (hne : qid ≠ pid) :
    armedJobs pid (add_job email qid i c d s).jobs = armedJobs pid s.jobs := by
  show armedJobs pid (s.jobs.filter (fun j => !(j.id == qid)) ++
      [⟨qid, d, email, i, c⟩]) = armedJobs pid s.jobs
  rw [armedJobs_append]
  have h1 : armedJobs pid [(⟨qid, d, email, i, c⟩ : Job)] = [] := by
    simp [armedJobs, List.filter_cons, hne]
  have h2 : armedJobs pid (s.jobs.filter (fun j => !(j.id == qid)))
      = armedJobs pid s.jobs := by
    unfold armedJobs
    exact filter_filter_of_imp _ _
      (by
        intro j hj
        have : j.id = pid := by simpa using hj
        simp [this, Ne.symm hne]) s.jobs
  rw [h1, h2, List.append_nil]

theorem armedJobs_add_job_self (pid : String) (email i c : String) (d : Int)
    (s : AppState) :
    armedJobs pid (add_job email pid i c d s).jobs = [⟨pid, d, email, i, c⟩] := by
  show armedJobs pid (s.jobs.filter (fun j => !(j.id == pid)) ++
      [⟨pid, d, email, i, c⟩]) = [⟨pid, d, email, i, c⟩]
  rw [armedJobs_append]
  have h1 : armedJobs pid (s.jobs.filter (fun j => !(j.id == pid))) = [] := by
    unfold armedJobs
    exact filter_filter_of_excl _ _
      (by intro j hj; simpa using hj) s.jobs
  rw [h1, List.nil_append]
  simp [armedJobs, List.filter_cons]

theorem armedJobs_remove_job (pid : String) (s : AppState) :
    armedJobs pid (remove_job pid s).jobs = [] := by
  unfold armedJobs remove_job
  exact filter_filter_of_excl _ _ (by intro j hj; simpa using hj) s.jobs

/-- C1: a schedule request and a reschedule (edit) request whose due
time, read in the request's own zone, is not strictly in the future are
both rejected with the past-due error and leave the state — store,
metrics, dispatcher, trace — exactly as it was. -/
theorem c1_past_due_rejected_without_mutation
    (cfg : Cfg) (off : String → Int) (now : Int)
    (email pid image_path caption link article_url new_caption : String)
    (wall : Int) (tz : String) (s : AppState)
    (hlog : cfg.igLoggedIn = true)
    (hpast : awareOf off tz wall ≤ now) :
    schedule_post_submit cfg off now email pid image_path caption link wall tz s
      = (s, some SchedErr.PastDue)
    ∧ edit_scheduled_post off now email pid image_path article_url new_caption
        wall tz s = (s, some SchedErr.PastDue) := by
  constructor
  · unfold schedule_post_submit
    rw [hlog, if_neg (by simp), if_pos hpast]
  · unfold edit_scheduled_post
    rw [if_pos hpast]

/-- Witness for C1 at a concrete past-due request. -/
theorem c1_witness :
    schedule_post_submit cfgDemo off0 5 "u" "p" "i" "c" "" 5 "UTC" emptyState
      = (emptyState, some SchedErr.PastDue)
    ∧ edit_scheduled_post off0 5 "u" "p" "i" "" "c" 5 "UTC" emptyState
      = (emptyState, some SchedErr.PastDue) :=
  c1_past_due_rejected_without_mutation cfgDemo off0 5 "u" "p" "i" "c" "" "" "c"
    5 "UTC" emptyState rfl (by decide)

/-- C6: arming a second dispatcher job under an id that is already armed
replaces the first job — exactly one live job remains and the second due
time wins; the reschedule path (tolerant remove, then add) likewise
leaves exactly one job, armed at the new due time. -/
theorem c6_dispatcher_replace_semantics
    (off : String → Int) (now : Int) (s : AppState)
    (e1 e2 email pid i1 i2 image_path article_url new_caption : String)
    (ca1 ca2 : String) (d1 d2 wall : Int) (tz : String)
    (hfut : now < awareOf off tz wall) :
    armedJobs pid (add_job e2 pid i2 ca2 d2 (add_job e1 pid i1 ca1 d1 s)).jobs
      = [⟨pid, d2, e2, i2, ca2⟩]
    ∧ armedJobs pid ((edit_scheduled_post off now email pid image_path
        article_url new_caption wall tz s).1).jobs
      = [⟨pid, awareOf off tz wall, email, image_path,
          if article_url = "" then new_caption
          else new_caption ++ "\nRead more at: " ++ article_url⟩] := by
  constructor
  · exact armedJobs_add_job_self pid e2 i2 ca2 d2 _
  · unfold edit_scheduled_post
    rw [if_neg (by exact not_le.2 hfut)]
    exact armedJobs_add_job_self pid email image_path _ _ _

/-- Witness for C6 at concrete jobs and a concrete reschedule. -/
theorem c6_witness :
    armedJobs "p1" (add_job "e2" "p1" "i2" "c2" 9
        (add_job "e1" "p1" "i1" "c1" 4 emptyState)).jobs
      = [⟨"p1", 9, "e2", "i2", "c2"⟩]
    ∧ armedJobs "p1" ((edit_scheduled_post off0 0 "u@x" "p1" "i" "" "c" 5
        "UTC" emptyState).1).jobs
      = [⟨"p1", awareOf off0 "UTC" 5, "u@x", "i",
          if "" = "" then "c" else "c" ++ "\nRead more at: " ++ ""⟩] :=
  c6_dispatcher_replace_semantics off0 0 emptyState "e1" "e2" "u@x" "p1" "i1"
    "i2" "i" "" "c" "c1" "c2" 4 9 5 "UTC" (by decide)

theorem find?_bumpFirst (email : String) (v : Nat) :
    ∀ ms : List (String × Nat),
      (bumpFirst email v ms).find? (fun m => m.1 == email)
        = (ms.find? (fun m => m.1 == email)).map (fun m => (m.1, m.2 + v)) := by
  intro ms
  induction ms with
  | nil => rfl
  | cons m t ih =>
    cases hm : (m.1 == email) with
    | true =>
      rw [bumpFirst, if_pos hm]
      have h1 : List.find? (fun x => x.1 == email) ((m.1, m.2 + v) :: t)
          = some (m.1, m.2 + v) := List.find?_cons_of_pos _ (by simpa using hm)
      have h2 : List.find? (fun x => x.1 == email) (m :: t) = some m :=
        List.find?_cons_of_pos _ hm
      rw [h1, h2]
      rfl
    | false =>
      rw [bumpFirst, if_neg (by simp [hm])]
      rw [List.find?_cons_of_neg _ (by simp [hm]),
        List.find?_cons_of_neg _ (by simp [hm]), ih]

theorem get_user_metric_eq_of_metrics (email : String) (s t : AppState)
    (h : s.metrics = t.metrics) :
    get_user_metric email s = get_user_metric email t := by
  unfold get_user_metric; rw [h]

theorem get_user_metric_update (email : String) (v : Nat) (s : AppState) :
    get_user_metric email (update_user_metric email v s)
      = get_user_metric email s + v := by
  unfold get_user_metric update_user_metric
  cases hany : s.metrics.any (fun m => m.1 == email) with
  | true =>
    simp only [hany, if_true]
    rw [find?_bumpFirst]
    cases hf : s.metrics.find? (fun m => m.1 == email) with
    | none =>
      rcases List.any_eq_true.1 hany with ⟨x, hx, hpx⟩
      exact absurd hpx (List.find?_eq_none.1 hf x hx)
    | some m => simp
  | false =>
    rw [if_neg (by simp [hany])]
    have hnone : s.metrics.find? (fun m => m.1 == email) = none := by
      rw [List.find?_eq_none]
      intro x hx hpx
      have : s.metrics.any (fun m => m.1 == email) = true :=
        List.any_eq_true.2 ⟨x, hx, hpx⟩
      rw [hany] at this
      exact absurd this (by simp)
    rw [find?_append_none _ _ _ hnone, hnone,
      List.find?_cons_of_pos _ (by simp)]
    simp

theorem removeFirstPost_no_match (email pid : String) :
    ∀ l : List Post, (l.map (fun p => p.id)).Nodup →
      ∀ q ∈ removeFirstPost email pid l, ¬(q.id = pid ∧ q.email = email) := by
  intro l
  induction l with
  | nil => intro _ q hq; simp [removeFirstPost] at hq
  | cons p ps ih =>
    intro hnd q hq
    rw [List.map_cons, List.nodup_cons] at hnd
    by_cases hm : (p.id == pid && p.email == email) = true
    · rw [removeFirstPost, if_pos hm] at hq
      rintro ⟨hqid, _⟩
      have hpid : p.id = pid := by
        have := hm
        simp only [Bool.and_eq_true, beq_iff_eq] at this
        exact this.1
      apply hnd.1
      rw [hpid, ← hqid]
      exact List.mem_map_of_mem _ hq
    · rw [removeFirstPost, if_neg hm] at hq
      rcases List.mem_cons.1 hq with h | h
      · subst h
        rintro ⟨hqid, hqe⟩
        exact hm (by simp [hqid, hqe])
      · exact ih hnd.2 q h

theorem removeFirstPost_id_of_no_match (email pid : String) :
    ∀ l : List Post, (∀ q ∈ l, ¬(q.id = pid ∧ q.email = email)) →
      removeFirstPost email pid l = l := by
  intro l
  induction l with
  | nil => intro _; rfl
  | cons p ps ih =>
    intro h
    rw [removeFirstPost, if_neg, ih (fun q hq => h q (List.mem_cons_of_mem _ hq))]
    intro hm
    exact h p (List.mem_cons_self _ _)
      (by simpa only [Bool.and_eq_true, beq_iff_eq] using hm)

theorem schedule_instagram_post_success_eq
    (cfg : Cfg) (u email pid image_path caption : String) (s : AppState)
    (htm : cfg.testMode = false) (hu : cfg.igUsername = some u)
    (hsf : cfg.sessionFileExists u = true) (hrl : cfg.reloginOk = true)
    (hok : cfg.sendSuccess image_path caption = true) :
    schedule_instagram_post cfg email pid image_path caption s
      = remove_scheduled_post email pid (update_user_metric email 1
          (logEvent (Event.send image_path caption)
            (logEvent (Event.publishAttempt pid) s))) := by
  unfold schedule_instagram_post post_to_instagram
  rw [htm, hu]
  simp [hsf, hrl, hok]

theorem schedule_instagram_post_failure_eq
    (cfg : Cfg) (u email pid image_path caption : String) (s : AppState)
    (htm : cfg.testMode = false) (hu : cfg.igUsername = some u)
    (hsf : cfg.sessionFileExists u = true) (hrl : cfg.reloginOk = true)
    (hfail : cfg.sendSuccess image_path caption = false) :
    schedule_instagram_post cfg email pid image_path caption s
      = logEvent (Event.send image_path caption)
          (logEvent (Event.publishAttempt pid) s) := by
  unfold schedule_instagram_post post_to_instagram
  rw [htm, hu]
  simp [hsf, hrl, hfail]

/-- C2: when the upload attempt goes through and succeeds, the publish
action is exactly "record the attempt, increment the owner's counter,
then remove the row" — afterwards the post no longer appears among the
owner's pending posts and the counter has grown by exactly 1. -/
theorem c2_publish_success_removes_and_increments
    (cfg : Cfg) (u email pid image_path caption : String) (s : AppState)
    (htm : cfg.testMode = false) (hu : cfg.igUsername = some u)
    (hsf : cfg.sessionFileExists u = true) (hrl : cfg.reloginOk = true)
    (hok : cfg.sendSuccess image_path caption = true)
    (hnodup : (s.posts.map (fun p => p.id)).Nodup) :
    schedule_instagram_post cfg email pid image_path caption s
      = remove_scheduled_post email pid (update_user_metric email 1
          (logEvent (Event.send image_path caption)
            (logEvent (Event.publishAttempt pid) s)))
    ∧ (∀ q ∈ listPending email
        (schedule_instagram_post cfg email pid image_path caption s),
        q.id ≠ pid)
    ∧ get_user_metric email
        (schedule_instagram_post cfg email pid image_path caption s)
      = get_user_metric email s + 1 := by
  have heq := schedule_instagram_post_success_eq cfg u email pid image_path
    caption s htm hu hsf hrl hok
  refine ⟨heq, ?_, ?_⟩
  · intro q hq hqid
    rw [heq] at hq
    unfold listPending at hq
    rcases List.mem_filter.1 hq with ⟨hq1, hq2⟩
    simp only [remove_scheduled_post_posts, update_user_metric_posts,
      logEvent_posts] at hq1
    exact removeFirstPost_no_match email pid s.posts hnodup q hq1
      ⟨hqid, by simpa using hq2⟩
  · rw [heq]
    calc get_user_metric email (remove_scheduled_post email pid
            (update_user_metric email 1 (logEvent (Event.send image_path caption)
              (logEvent (Event.publishAttempt pid) s))))
        = get_user_metric email (update_user_metric email 1
            (logEvent (Event.send image_path caption)
              (logEvent (Event.publishAttempt pid) s))) :=
          get_user_metric_eq_of_metrics _ _ _ (by simp)
      _ = get_user_metric email (logEvent (Event.send image_path caption)
            (logEvent (Event.publishAttempt pid) s)) + 1 :=
          get_user_metric_update _ _ _
      _ = get_user_metric email s + 1 := by
          rw [get_user_metric_eq_of_metrics email _ s (by simp)]

/-- Witness for C2: a concrete successful publish of the armed payload
removes the pending row and bumps the owner's counter from 4 to 5. -/
theorem c2_witness :
    schedule_instagram_post cfgDemo "u@x" "a" "i.jpg" "cap" s2w
      = remove_scheduled_post "u@x" "a" (update_user_metric "u@x" 1
          (logEvent (Event.send "i.jpg" "cap")
            (logEvent (Event.publishAttempt "a") s2w)))
    ∧ (∀ q ∈ listPending "u@x"
        (schedule_instagram_post cfgDemo "u@x" "a" "i.jpg" "cap" s2w),
        q.id ≠ "a")
    ∧ get_user_metric "u@x"
        (schedule_instagram_post cfgDemo "u@x" "a" "i.jpg" "cap" s2w)
      = get_user_metric "u@x" s2w + 1 :=
  c2_publish_success_removes_and_increments cfgDemo "iguser" "u@x" "a" "i.jpg"
    "cap" s2w rfl rfl rfl rfl rfl (by decide)

/-- C3: when the upload attempt fails, the failure is absorbed inside the
publish action — the store rows and the metric counters are exactly as
before, and the trace shows the attempt was made. -/
theorem c3_publish_failure_retains
    (cfg : Cfg) (u email pid image_path caption : String) (s : AppState)
    (htm : cfg.testMode = false) (hu : cfg.igUsername = some u)
    (hsf : cfg.sessionFileExists u = true) (hrl : cfg.reloginOk = true)
    (hfail : cfg.sendSuccess image_path caption = false) :
    (schedule_instagram_post cfg email pid image_path caption s).posts = s.posts
    ∧ (schedule_instagram_post cfg email pid image_path caption s).metrics
        = s.metrics
    ∧ (schedule_instagram_post cfg email pid image_path caption s).events
        = s.events ++ [Event.publishAttempt pid, Event.send image_path caption] := by
  rw [schedule_instagram_post_failure_eq cfg u email pid image_path caption s
    htm hu hsf hrl hfail]
  exact ⟨rfl, rfl, by simp⟩

/-- Witness for C3 at a concrete failing upload. -/
theorem c3_witness :
    (schedule_instagram_post cfgFail "u@x" "a" "i.jpg" "cap" s2w).posts = s2w.posts
    ∧ (schedule_instagram_post cfgFail "u@x" "a" "i.jpg" "cap" s2w).metrics
        = s2w.metrics
    ∧ (schedule_instagram_post cfgFail "u@x" "a" "i.jpg" "cap" s2w).events
        = s2w.events ++ [Event.publishAttempt "a", Event.send "i.jpg" "cap"] :=
  c3_publish_failure_retains cfgFail "iguser" "u@x" "a" "i.jpg" "cap" s2w
    rfl rfl rfl rfl rfl

/-- C4 counterexample: in a state whose store holds no record at all (as
after a cancel), invoking the publish action still calls the Instagram
upload with the payload captured at arm time and still increments the
owner's counter — the claimed re-fetch guard does not exist in the code. -/
theorem c4_counterexample_absent_post_still_published :
    listPending "u@x" emptyState = []
    ∧ (schedule_instagram_post cfgDemo "u@x" "p1" "img.jpg" "hello" emptyState).events
        = [Event.publishAttempt "p1", Event.send "img.jpg" "hello"]
    ∧ get_user_metric "u@x"
        (schedule_instagram_post cfgDemo "u@x" "p1" "img.jpg" "hello" emptyState) = 1
    ∧ (schedule_instagram_post cfgDemo "u@x" "p1" "img.jpg" "hello" emptyState).posts
        = [] := by
  decide

/-- C4 as amended: the publish action does not re-fetch the record; with
the record absent it still attempts the upload and, on success, still
increments the metric — but it raises no error, and the store is left
unchanged because the removal tolerates the missing row. -/
theorem c4_publish_absent_attempts_and_tolerates
    (cfg : Cfg) (u email pid image_path caption : String) (s : AppState)
    (htm : cfg.testMode = false) (hu : cfg.igUsername = some u)
    (hsf : cfg.sessionFileExists u = true) (hrl : cfg.reloginOk = true)
    (hok : cfg.sendSuccess image_path caption = true)
    (habs : ∀ q ∈ s.posts, ¬(q.id = pid ∧ q.email = email)) :
    (schedule_instagram_post cfg email pid image_path caption s).posts = s.posts
    ∧ (schedule_instagram_post cfg email pid image_path caption s).events
        = s.events ++ [Event.publishAttempt pid, Event.send image_path caption]
    ∧ get_user_metric email
        (schedule_instagram_post cfg email pid image_path caption s)
      = get_user_metric email s + 1 := by
  rw [schedule_instagram_post_success_eq cfg u email pid image_path caption s
    htm hu hsf hrl hok]
  refine ⟨?_, by simp, ?_⟩
  · simp only [remove_scheduled_post_posts, update_user_metric_posts,
      logEvent_posts]
    exact removeFirstPost_id_of_no_match email pid s.posts habs
  · calc get_user_metric email (remove_scheduled_post email pid
            (update_user_metric email 1 (logEvent (Event.send image_path caption)
              (logEvent (Event.publishAttempt pid) s))))
        = get_user_metric email (update_user_metric email 1
            (logEvent (Event.send image_path caption)
              (logEvent (Event.publishAttempt pid) s))) :=
          get_user_metric_eq_of_metrics _ _ _ (by simp)
      _ = get_user_metric email (logEvent (Event.send image_path caption)
            (logEvent (Event.publishAttempt pid) s)) + 1 :=
          get_user_metric_update _ _ _
      _ = get_user_metric email s + 1 := by
          rw [get_user_metric_eq_of_metrics email _ s (by simp)]

/-- Witness for the amended C4 on the empty store. -/
theorem c4_witness :
    (schedule_instagram_post cfgDemo "u@x" "p2" "im.jpg" "hi" emptyState).posts
        = emptyState.posts
    ∧ (schedule_instagram_post cfgDemo "u@x" "p2" "im.jpg" "hi" emptyState).events
        = emptyState.events ++ [Event.publishAttempt "p2", Event.send "im.jpg" "hi"]
    ∧ get_user_metric "u@x"
        (schedule_instagram_post cfgDemo "u@x" "p2" "im.jpg" "hi" emptyState)
      = get_user_metric "u@x" emptyState + 1 :=
  c4_publish_absent_attempts_and_tolerates cfgDemo "iguser" "u@x" "p2" "im.jpg"
    "hi" emptyState rfl rfl rfl rfl rfl (by simp [emptyState])

theorem filter_not_self_of_armedJobs_nil (pid : String) (js : List Job)
    (h : armedJobs pid js = []) :
    js.filter (fun j => !(j.id == pid)) = js := by
  rw [List.filter_eq_self]
  intro j hj
  cases hp : (j.id == pid) with
  | false => simp
  | true =>
    exfalso
    have hmem : j ∈ armedJobs pid js := List.mem_filter.2 ⟨hj, hp⟩
    rw [h] at hmem
    exact absurd hmem (List.not_mem_nil j)

/-- C7: cancellation never raises (it is a total function built from a
tolerant job removal and a tolerant row deletion), cancelling twice
leaves exactly the state of cancelling once, and cancelling when neither
a timer nor a record exists changes nothing at all. -/
theorem c7_cancel_idempotent_and_tolerant (email pid : String) (s : AppState)
    (hnodup : (s.posts.map (fun p => p.id)).Nodup) :
    delete_scheduled_post email pid (delete_scheduled_post email pid s)
      = delete_scheduled_post email pid s
    ∧ (armedJobs pid s.jobs = [] →
        (∀ q ∈ s.posts, ¬(q.id = pid ∧ q.email = email)) →
        delete_scheduled_post email pid s = s) := by
  obtain ⟨po, me, jo, ev⟩ := s
  constructor
  · unfold delete_scheduled_post remove_scheduled_post remove_job
    simp only [AppState.mk.injEq]
    refine ⟨?_, trivial, ?_, trivial⟩
    · exact removeFirstPost_id_of_no_match email pid _
        (removeFirstPost_no_match email pid po hnodup)
    · exact filter_filter_of_imp _ _ (fun a ha => ha) jo
  · intro hjobs hposts
    unfold delete_scheduled_post remove_scheduled_post remove_job
    simp only [AppState.mk.injEq]
    refine ⟨?_, trivial, ?_, trivial⟩
    · exact removeFirstPost_id_of_no_match email pid po hposts
    · exact filter_not_self_of_armedJobs_nil pid jo hjobs

/-- Witness for C7: a concrete double cancel, and a cancel on the empty
state. -/
theorem c7_witness :
    delete_scheduled_post "u@x" "a" (delete_scheduled_post "u@x" "a" s7)
      = delete_scheduled_post "u@x" "a" s7
    ∧ delete_scheduled_post "u@x" "a" emptyState = emptyState :=
  ⟨(c7_cancel_idempotent_and_tolerant "u@x" "a" s7 (by decide)).1,
   (c7_cancel_idempotent_and_tolerant "u@x" "a" emptyState (by decide)).2
     rfl (by simp [emptyState])⟩

theorem updateFirst_eq (email pid : String) (pa : Patch) :
    ∀ (l1 : List Post) (p : Post) (l2 : List Post),
      p.id = pid → p.email = email →
      (∀ q ∈ l1, ¬(q.id = pid ∧ q.email = email)) →
      updateFirst email pid pa (l1 ++ p :: l2) = l1 ++ applyPatch pa p :: l2 := by
  intro l1
  induction l1 with
  | nil =>
    intro p l2 hp1 hp2 _
    rw [List.nil_append, updateFirst, if_pos (by simp [hp1, hp2]),
      List.nil_append]
  | cons a t ih =>
    intro p l2 hp1 hp2 h
    rw [List.cons_append, updateFirst, if_neg, List.cons_append,
      ih p l2 hp1 hp2 (fun q hq => h q (List.mem_cons_of_mem _ hq))]
    intro hm
    exact h a (List.mem_cons_self _ _)
      (by simpa only [Bool.and_eq_true, beq_iff_eq] using hm)

/-- C8 counterexample: updating an id with no record completes silently
with the store unchanged — it does not fail, and in particular it does
not fail with a not-found error as the claim states. -/
theorem c8_counterexample_update_absent_is_silent :
    (update_scheduled_post "u@x" "missing" patchDemo s8).2 = none
    ∧ (update_scheduled_post "u@x" "missing" patchDemo s8).2
        ≠ some SchedErr.NotFound
    ∧ (update_scheduled_post "u@x" "missing" patchDemo s8).1 = s8 := by
  decide

/-- C8 as amended: updating an absent id is a silent no-op returning the
store unchanged and no error; updating a present record applies exactly
the patch fields that are present (via `applyPatch`) to the matched row
and leaves every other row untouched. -/
theorem c8_update_partial_patch (email pid : String) (pa : Patch)
    (s : AppState) :
    ((∀ q ∈ s.posts, ¬(q.id = pid ∧ q.email = email)) →
      update_scheduled_post email pid pa s = (s, none))
    ∧ (∀ (l1 : List Post) (p : Post) (l2 : List Post),
        s.posts = l1 ++ p :: l2 → p.id = pid → p.email = email →
        (∀ q ∈ l1, ¬(q.id = pid ∧ q.email = email)) →
        update_scheduled_post email pid pa s
          = ({ s with posts := l1 ++ applyPatch pa p :: l2 }, none)) := by
  constructor
  · intro habs
    unfold update_scheduled_post
    rw [if_neg]
    intro hany
    rcases List.any_eq_true.1 hany with ⟨q, hq, hpq⟩
    exact habs q hq (by simpa only [Bool.and_eq_true, beq_iff_eq] using hpq)
  · intro l1 p l2 hsp hp1 hp2 hl1
    unfold update_scheduled_post
    rw [if_pos (List.any_eq_true.2 ⟨p, by
        rw [hsp]; exact List.mem_append_right _ (List.mem_cons_self _ _),
        by simp [hp1, hp2]⟩)]
    rw [hsp, updateFirst_eq email pid pa l1 p l2 hp1 hp2 hl1]

/-- Witness for the amended C8: an absent-id update is the identity; a
present-id update patches the matched row. -/
theorem c8_witness :
    update_scheduled_post "u@x" "zz" patchDemo s8 = (s8, none)
    ∧ update_scheduled_post "u@x" "a" patchDemo s8
      = ({ s8 with posts := [] ++ applyPatch patchDemo postA :: [] }, none) :=
  ⟨(c8_update_partial_patch "u@x" "zz" patchDemo s8).1 (by decide),
   (c8_update_partial_patch "u@x" "a" patchDemo s8).2 [] postA [] rfl rfl rfl
     (by simp)⟩

theorem schedule_instagram_post_jobs (cfg : Cfg) (email pid i c : String)
    (s : AppState) :
    (schedule_instagram_post cfg email pid i c s).jobs = s.jobs := by
  unfold schedule_instagram_post post_to_instagram
  dsimp only
  split
  · rfl
  · split
    · rfl
    · split
      · split
        · split <;> simp
        · rfl
      · rfl

theorem schedule_instagram_post_events (cfg : Cfg) (email qid i c : String)
    (s : AppState) :
    (schedule_instagram_post cfg email qid i c s).events
        = s.events ++ [Event.publishAttempt qid]
    ∨ (schedule_instagram_post cfg email qid i c s).events
        = s.events ++ [Event.publishAttempt qid, Event.send i c] := by
  unfold schedule_instagram_post post_to_instagram
  dsimp only
  split
  · left; rfl
  · split
    · left; rfl
    · split
      · split
        · split
          · right; simp
          · right; simp
        · left; rfl
      · left; rfl

theorem attemptCount_append (pid : String) (l₁ l₂ : List Event) :
    attemptCount pid (l₁ ++ l₂) = attemptCount pid l₁ + attemptCount pid l₂ := by
  simp [attemptCount, List.countP_append]

theorem attemptCount_publishAttempt (pid qid : String) :
    attemptCount pid [Event.publishAttempt qid] = if qid = pid then 1 else 0 := by
  by_cases h : qid = pid <;> simp [attemptCount, List.countP_cons, h]

theorem attemptCount_send_single (pid i c : String) :
    attemptCount pid [Event.send i c] = 0 := by
  simp [attemptCount, List.countP_cons]

theorem attemptCount_schedule_instagram_post (cfg : Cfg)
    (email qid i c : String) (s : AppState) (pid : String) :
    attemptCount pid (schedule_instagram_post cfg email qid i c s).events
      = attemptCount pid s.events + (if qid = pid then 1 else 0) := by
  rcases schedule_instagram_post_events cfg email qid i c s with h | h <;>
    rw [h] <;> by_cases hq : qid = pid <;>
    simp [attemptCount, List.countP_append, List.countP_cons, hq]

theorem reconcile_post_preserves (cfg : Cfg) (off : String → Int)
    (tzOk : String → Bool) (now : Int) (email : String) (s : AppState)
    (q : Post) (pid : String) (hne : q.id ≠ pid) :
    armedJobs pid (reconcile_post cfg off tzOk now email s q).jobs
      = armedJobs pid s.jobs
    ∧ attemptCount pid (reconcile_post cfg off tzOk now email s q).events
      = attemptCount pid s.events := by
  unfold reconcile_post
  split
  · split
    · split
      · exact ⟨armedJobs_add_job_ne pid email q.id q.image_path q.caption _ s hne,
          by rw [add_job_events]⟩
      · constructor
        · rw [schedule_instagram_post_jobs]
        · rw [attemptCount_schedule_instagram_post]
          simp [hne]
    · exact ⟨rfl, rfl⟩
  · exact ⟨rfl, rfl⟩

theorem foldl_reconcile_preserves (cfg : Cfg) (off : String → Int)
    (tzOk : String → Bool) (now : Int) (email pid : String) :
    ∀ (l : List Post) (s : AppState), (∀ q ∈ l, q.id ≠ pid) →
      armedJobs pid ((l.foldl (reconcile_post cfg off tzOk now email) s)).jobs
        = armedJobs pid s.jobs
      ∧ attemptCount pid
          ((l.foldl (reconcile_post cfg off tzOk now email) s)).events
        = attemptCount pid s.events := by
  intro l
  induction l with
  | nil => intro s _; exact ⟨rfl, rfl⟩
  | cons q t ih =>
    intro s h
    rw [List.foldl_cons]
    have h1 := reconcile_post_preserves cfg off tzOk now email s q pid
      (h q (List.mem_cons_self _ _))
    have h2 := ih (reconcile_post cfg off tzOk now email s q)
      (fun r hr => h r (List.mem_cons_of_mem _ hr))
    exact ⟨h2.1.trans h1.1, h2.2.trans h1.2⟩

theorem find?_none_of_armedJobs_nil (pid : String) (js : List Job)
    (h : armedJobs pid js = []) :
    js.find? (fun j => j.id == pid) = none := by
  rw [List.find?_eq_none]
  intro j hj hpj
  have hmem : j ∈ armedJobs pid js := List.mem_filter.2 ⟨hj, hpj⟩
  rw [h] at hmem
  exact absurd hmem (List.not_mem_nil j)

/-- C5: reconciliation at session start, for a persisted pending post of
the owner whose zone name parses and whose id is not already armed: the
due time is compared against now in the post's own recorded zone; a
still-future post gets exactly one timer armed at its localized due time
and no publish attempt, while an already-passed post gets exactly one
immediate publish attempt and no timer. -/
theorem c5_reconciliation_catch_up
    (cfg : Cfg) (off : String → Int) (tzOk : String → Bool) (now : Int)
    (email : String) (s : AppState) (p : Post) (l1 l2 : List Post)
    (hsnap : s.posts.filter (fun q => q.email == email) = l1 ++ p :: l2)
    (hids : ∀ q ∈ l1 ++ l2, q.id ≠ p.id)
    (htz : tzOk p.timezone = true)
    (hnot : armedJobs p.id s.jobs = []) :
    (now < awareOf off p.timezone p.scheduled_time →
      armedJobs p.id
          (load_and_schedule_existing_posts cfg off tzOk now email s).jobs
        = [⟨p.id, awareOf off p.timezone p.scheduled_time, email,
            p.image_path, p.caption⟩]
      ∧ attemptCount p.id
          (load_and_schedule_existing_posts cfg off tzOk now email s).events
        = attemptCount p.id s.events)
    ∧ (awareOf off p.timezone p.scheduled_time ≤ now →
      attemptCount p.id
          (load_and_schedule_existing_posts cfg off tzOk now email s).events
        = attemptCount p.id s.events + 1
      ∧ armedJobs p.id
          (load_and_schedule_existing_posts cfg off tzOk now email s).jobs
        = []) := by
  unfold load_and_schedule_existing_posts
  rw [hsnap, List.foldl_append, List.foldl_cons]
  have hl1 : ∀ q ∈ l1, q.id ≠ p.id :=
    fun q hq => hids q (List.mem_append_left _ hq)
  have hl2 : ∀ q ∈ l2, q.id ≠ p.id :=
    fun q hq => hids q (List.mem_append_right _ hq)
  have hpre1 := foldl_reconcile_preserves cfg off tzOk now email p.id l1 s hl1
  set s1 := l1.foldl (reconcile_post cfg off tzOk now email) s with hs1
  have hfind : s1.jobs.find? (fun j => j.id == p.id) = none :=
    find?_none_of_armedJobs_nil _ _ (hpre1.1.trans hnot)
  constructor
  · intro hfut
    have hstep : reconcile_post cfg off tzOk now email s1 p
        = add_job email p.id p.image_path p.caption
            (awareOf off p.timezone p.scheduled_time) s1 := by
      unfold reconcile_post
      rw [if_pos htz, if_pos hfind, if_pos hfut]
    rw [hstep]
    have hpre2 := foldl_reconcile_preserves cfg off tzOk now email p.id l2
      (add_job email p.id p.image_path p.caption
        (awareOf off p.timezone p.scheduled_time) s1) hl2
    constructor
    · rw [hpre2.1, armedJobs_add_job_self]
    · rw [hpre2.2, add_job_events]
      exact hpre1.2
  · intro hpast
    have hstep : reconcile_post cfg off tzOk now email s1 p
        = schedule_instagram_post cfg email p.id p.image_path p.caption s1 := by
      unfold reconcile_post
      rw [if_pos htz, if_pos hfind, if_neg (not_lt.2 hpast)]
    rw [hstep]
    have hpre2 := foldl_reconcile_preserves cfg off tzOk now email p.id l2
      (schedule_instagram_post cfg email p.id p.image_path p.caption s1) hl2
    constructor
    · rw [hpre2.2, attemptCount_schedule_instagram_post]
      simp [hpre1.2]
    · rw [hpre2.1, schedule_instagram_post_jobs]
      exact hpre1.1.trans hnot

/-- Witness for C5: a future-due post is re-armed (once, at its localized
due time) with no publish attempt; a past-due post is published
immediately (exactly one attempt) with no timer armed. -/
theorem c5_witness :
    (armedJobs "p1"
        (load_and_schedule_existing_posts cfgDemo off0 tzOk0 0 "u@x" s5).jobs
      = [⟨"p1", awareOf off0 "UTC" 3, "u@x", "i.jpg", "cap"⟩]
     ∧ attemptCount "p1"
        (load_and_schedule_existing_posts cfgDemo off0 tzOk0 0 "u@x" s5).events
      = attemptCount "p1" s5.events)
    ∧ (attemptCount "q1"
        (load_and_schedule_existing_posts cfgDemo off0 tzOk0 0 "u@x" s5q).events
      = attemptCount "q1" s5q.events + 1
     ∧ armedJobs "q1"
        (load_and_schedule_existing_posts cfgDemo off0 tzOk0 0 "u@x" s5q).jobs
      = []) :=
  ⟨(c5_reconciliation_catch_up cfgDemo off0 tzOk0 0 "u@x" s5 postP [] []
      (by decide) (by simp) (by decide) rfl).1 (by decide),
   (c5_reconciliation_catch_up cfgDemo off0 tzOk0 0 "u@x" s5q postQ [] []
      (by decide) (by simp) (by decide) rfl).2 (by decide)⟩

end Local

namespace Monetize

/-- C9: one pass of the background loop over a due, unposted post
attempts Twitter and Instagram delivery and then marks the post as
posted whatever the delivery outcomes were (the helpers swallow their
errors); a post once marked is never stepped again — no later pass
attempts it, so no post is delivered twice or retried after a failure. -/
theorem c9_due_post_attempted_once_never_retried
    (twOk igOk : String → Bool) (imageExists : Bool) (now : Int) (p : SPost)
    (hunposted : p.posted = false) (hdue : p.scheduled_time ≤ now) :
    (step twOk igOk imageExists now p).1 = { p with posted := true }
    ∧ (step twOk igOk imageExists now p).2
        = post_to_twitter twOk p.content
          ++ post_to_instagram igOk imageExists p.content
    ∧ (∀ (t2 i2 : String → Bool) (e2 : Bool) (n2 : Int),
        step t2 i2 e2 n2 (step twOk igOk imageExists now p).1
          = ((step twOk igOk imageExists now p).1, []))
    ∧ ∀ l1 l2 : List SPost,
        (process_scheduled_posts_once twOk igOk imageExists now
            (l1 ++ p :: l2)).1
          = l1.map (fun q => (step twOk igOk imageExists now q).1)
            ++ { p with posted := true }
              :: l2.map (fun q => (step twOk igOk imageExists now q).1) := by
  have hstep : step twOk igOk imageExists now p
      = ({ p with posted := true },
         post_to_twitter twOk p.content
           ++ post_to_instagram igOk imageExists p.content) := by
    unfold step
    rw [if_pos ⟨hunposted, hdue⟩]
  refine ⟨by rw [hstep], by rw [hstep], ?_, ?_⟩
  · intro t2 i2 e2 n2
    rw [hstep]
    unfold step
    rw [if_neg]
    rintro ⟨h1, _⟩
    simp at h1
  · intro l1 l2
    unfold process_scheduled_posts_once
    simp [List.map_append, hstep]

/-- Witness for C9: a due unposted post is marked posted even though the
Instagram delivery fails, and a later pass leaves it alone. -/
theorem c9_witness :
    (step tw0 ig0 true 5 p0).1 = { p0 with posted := true }
    ∧ (step tw0 ig0 true 5 p0).2
        = post_to_twitter tw0 p0.content ++ post_to_instagram ig0 true p0.content
    ∧ step tw0 ig0 true 9 (step tw0 ig0 true 5 p0).1
        = ((step tw0 ig0 true 5 p0).1, [])
    ∧ (process_scheduled_posts_once tw0 ig0 true 5 ([] ++ p0 :: [])).1
        = ([] : List SPost).map (fun q => (step tw0 ig0 true 5 q).1)
          ++ { p0 with posted := true }
            :: ([] : List SPost).map (fun q => (step tw0 ig0 true 5 q).1) := by
  have h := c9_due_post_attempted_once_never_retried tw0 ig0 true 5 p0 rfl
    (by decide)
  exact ⟨h.1, h.2.1, h.2.2.1 tw0 ig0 true 9, h.2.2.2 [] []⟩

/-- C10: a free user already holding the limit of unposted records is
refused — nothing is appended and `false` is returned; any other request
(free under the limit or non-free) appends exactly one new unposted
record and returns `true`. -/
theorem c10_free_quota_enforced
    (status : String → String) (posts : List SPost)
    (username content : String) (t : Int) :
    (status username = "free" →
      FREE_SCHEDULED_POST_LIMIT ≤ (pendingOf username posts).length →
      schedule_social_media_post status posts username content t
        = (posts, false))
    ∧ (¬(status username = "free" ∧
        FREE_SCHEDULED_POST_LIMIT ≤ (pendingOf username posts).length) →
      schedule_social_media_post status posts username content t
        = (posts ++ [⟨username, content, t, false⟩], true)) := by
  constructor
  · intro h1 h2
    unfold schedule_social_media_post
    rw [if_pos ⟨h1, h2⟩]
  · intro h
    unfold schedule_social_media_post
    rw [if_neg h]

/-- Witness for C10: a free user with three unposted records is refused;
the same user with an empty queue gets the post appended. -/
theorem c10_witness :
    schedule_social_media_post st0 posts0 "u" "d" 9 = (posts0, false)
    ∧ schedule_social_media_post st0 [] "u" "d" 9
        = ([⟨"u", "d", 9, false⟩], true) :=
  ⟨(c10_free_quota_enforced st0 posts0 "u" "d" 9).1 rfl (by decide),
   (c10_free_quota_enforced st0 [] "u" "d" 9).2 (by decide)⟩

end Monetize
